import Mathlib

/-!
Shallow embedding of the roster data-management component
(`src/unnamed/part_000`, a React component named `Roster`) of the
CFB25-Dynasty-Manager repository, together with proofs about its
validation, ordering and lifecycle behaviour.

Modelling conventions:
* React `useState` cells become fields of an explicit `RosterState`
  record; each event handler becomes a pure function
  `RosterState → … → RosterState`.
* The `useEffect` with dependency `[players]` (source lines 38-41)
  resets the sort configuration whenever `setPlayers` is called, since
  every `setPlayers` call in the component passes a freshly constructed
  array (a new reference).  Accordingly every operation that calls
  `setPlayers` also sets `sortConfig` to the default in this model.
* `Date.now()` is an external clock; its value at an `addPlayer` call
  is passed in as an explicit `now : Nat` argument.
* JavaScript `parseInt` is modelled as `Option Int` (`none` for NaN);
  ECMAScript `SortCompare` maps a NaN comparator result to `+0`, which
  the comparator model reflects by returning `0` in those branches.
* `Array.prototype.sort` is modelled as a stable comparison sort
  (insertion sort) driven by the comparator.
* `toast` calls and `console.error` are presentation-only side effects
  and are dropped; the `try`/`catch` around `setPlayers` never fires in
  the model (state update is pure).
-/

namespace CFB25

/-- The `Player` interface (source lines 14-20).  `id : number` is a
`Date.now()` millisecond timestamp, modelled as `Nat`. -/
structure Player where
  id : Nat
  name : String
  position : String
  year : String
  rating : String
deriving Repr, DecidableEq

/-- The draft record held in the `newPlayer` state cell: a `Player`
without the `id` field (`Omit<Player, 'id'>`, source line 33). -/
structure Draft where
  name : String
  position : String
  year : String
  rating : String
deriving Repr, DecidableEq

/-- The fixed position-code list (source line 22). -/
def positions : List String :=
  ["QB", "RB", "WR", "TE", "OL", "DL", "LB", "CB", "S", "K", "P"]

/-- The fixed year-label list (source line 23). -/
def years : List String :=
  ["FR", "FR (RS)", "SO", "SO (RS)", "JR", "JR (RS)", "SR", "SR (RS)"]

/-- The `yearOrder` rank table (source lines 27-29).  A lookup of a key
absent from the object yields `undefined` in JavaScript; this is
modelled as `none`. -/
def yearOrder : String → Option Nat
  | "FR" => some 0
  | "FR (RS)" => some 1
  | "SO" => some 2
  | "SO (RS)" => some 3
  | "JR" => some 4
  | "JR (RS)" => some 5
  | "SR" => some 6
  | "SR (RS)" => some 7
  | _ => none

/-- The `SortField` union type (source line 25). -/
inductive SortField where
  | name
  | position
  | year
  | rating
deriving Repr, DecidableEq

/-- Sort direction: `'asc' | 'desc'` (source line 35). -/
inductive SortDir where
  | asc
  | desc
deriving Repr, DecidableEq

/-- The `sortConfig` state cell (source line 35). -/
structure SortConfig where
  field : SortField
  direction : SortDir
deriving Repr, DecidableEq

/-- The initial and `useEffect`-reasserted sort configuration
(source lines 35 and 38-41). -/
def defaultSortConfig : SortConfig := ⟨.rating, .desc⟩

/-- JavaScript whitespace recognised while modelling `parseInt` and
`String.prototype.trim` (the common ASCII cases). -/
def isSpaceChar (c : Char) : Bool :=
  c = ' ' || c = '\t' || c = '\n' || c = '\r'

/-- Numeric value of a leading decimal-digit run. -/
def digitsToNat (ds : List Char) : Nat :=
  ds.foldl (fun a c => 10 * a + (c.toNat - 48)) 0

/-- Model of JavaScript `parseInt(s)` restricted to decimal input:
skip leading whitespace, accept an optional sign, read the leading
digit run and ignore trailing garbage; if no digit is read the result
is NaN, modelled as `none`. -/
def jsParseInt (s : String) : Option Int :=
  let cs := s.data.dropWhile isSpaceChar
  match cs with
  | '-' :: rest =>
    let ds := rest.takeWhile Char.isDigit
    if ds.isEmpty then none else some (-(digitsToNat ds : Int))
  | '+' :: rest =>
    let ds := rest.takeWhile Char.isDigit
    if ds.isEmpty then none else some (digitsToNat ds : Int)
  | _ =>
    let ds := cs.takeWhile Char.isDigit
    if ds.isEmpty then none else some (digitsToNat ds : Int)

/-- Lexicographic order on character lists by code point, modelling
JavaScript's `<` on strings (code-unit comparison; identical on the
basic multilingual plane). -/
def lexLt : List Char → List Char → Bool
  | [], [] => false
  | [], _ :: _ => true
  | _ :: _, [] => false
  | a :: as, b :: bs =>
    if a.toNat < b.toNat then true
    else if b.toNat < a.toNat then false
    else lexLt as bs

/-- Comparator branch for the generic lexical comparison
(source lines 52-54): JavaScript `<` / `>` on strings is lexicographic
by code unit. -/
def strFieldCmp (dir : SortDir) (x y : String) : Int :=
  if lexLt x.data y.data then (match dir with | .asc => -1 | .desc => 1)
  else if lexLt y.data x.data then (match dir with | .asc => 1 | .desc => -1)
  else 0

/-- The comparator passed to `sort` in `sortedPlayers`
(source lines 43-56).  In the `year` and `rating` branches a lookup
miss or parse failure makes the JavaScript arithmetic produce NaN,
and ECMAScript `SortCompare` turns a NaN comparator result into `+0`;
those branches therefore return `0`. -/
def compareForSort (cfg : SortConfig) (a b : Player) : Int :=
  match cfg.field with
  | .year =>
    match yearOrder a.year, yearOrder b.year with
    | some x, some y =>
      let yearDiff : Int := (x : Int) - (y : Int)
      match cfg.direction with | .asc => yearDiff | .desc => -yearDiff
    | _, _ => 0
  | .rating =>
    match jsParseInt a.rating, jsParseInt b.rating with
    | some x, some y =>
      match cfg.direction with | .asc => x - y | .desc => y - x
    | _, _ => 0
  | .name => strFieldCmp cfg.direction a.name b.name
  | .position => strFieldCmp cfg.direction a.position b.position

/-- Stable insertion of `a` into an already ordered list: `a` goes
before the first element `b` with `cmp a b < 0`, i.e. after every
element it compares equal to (stability). -/
def insertBy {α : Type} (cmp : α → α → Int) (a : α) : List α → List α
  | [] => [a]
  | b :: bs => if cmp a b < 0 then a :: b :: bs else b :: insertBy cmp a bs

/-- Model of `[...players].sort(comparator)`: a stable comparison sort
(insertion sort) of a copy of the input. -/
def sortJs {α : Type} (cmp : α → α → Int) (l : List α) : List α :=
  l.foldl (fun acc x => insertBy cmp x acc) []

/-- The `sortedPlayers` view (source lines 43-56). -/
def sortedPlayers (players : List Player) (cfg : SortConfig) : List Player :=
  sortJs (compareForSort cfg) players

/-- Trim of a character list at both ends, used by the name
validator model. -/
def trimChars (cs : List Char) : List Char :=
  ((cs.dropWhile isSpaceChar).reverse.dropWhile isSpaceChar).reverse

/-- Modelled from the spec: `validateName` is imported from
`@/utils/validationUtils`, whose source is not in the repository
snapshot.  Spec §4.1: "fails when the trimmed value is empty or
exceeds 100 characters". -/
def validateName (name : String) : Bool :=
  let t := trimChars name.data
  !t.isEmpty && decide (t.length ≤ 100)

/-- Modelled from the spec: `validatePosition` is imported from
`@/utils/validationUtils`, whose source is not in the repository
snapshot.  Spec §4.1: "fails unless the value exactly matches one
member of the fixed position-code set". -/
def validatePosition (p : String) : Bool :=
  positions.contains p

/-- Modelled from the spec: `validateRating` is imported from
`@/utils/validationUtils`, whose source is not in the repository
snapshot.  Spec §4.1: "fails unless the value parses as an integer and
the parsed value lies in the closed range [0, 99]". -/
def validateRating (r : String) : Bool :=
  match jsParseInt r with
  | some n => decide (0 ≤ n) && decide (n ≤ 99)
  | none => false

/-- Split a character list at each space, keeping empty words. -/
def splitOnSpace : List Char → List (List Char)
  | [] => [[]]
  | ' ' :: rest => [] :: splitOnSpace rest
  | c :: rest =>
    match splitOnSpace rest with
    | [] => [[c]]
    | w :: ws => (c :: w) :: ws

/-- Capitalize one word: first character upper-cased, rest lower-cased. -/
def capitalizeWord : List Char → List Char
  | [] => []
  | c :: rest => c.toUpper :: rest.map Char.toLower

/-- Rejoin words with single spaces. -/
def joinSpace : List (List Char) → List Char
  | [] => []
  | [w] => w
  | w :: ws => w ++ ' ' :: joinSpace ws

/-- Modelled from the spec: `capitalizeName` is imported from
`@/utils`, whose source is not in the repository snapshot.  Spec §3:
the display form of a name "is capitalized-per-word". -/
def capitalizeName (s : String) : String :=
  String.mk (joinSpace ((splitOnSpace s.data).map capitalizeWord))

/-- The empty draft used to initialise and clear the `newPlayer` cell
(source lines 33, 69, 109, 114). -/
def emptyDraft : Draft := ⟨"", "", "", ""⟩

/-- The component state: the five `useState` cells of `Roster`
(source lines 32-36). -/
structure RosterState where
  players : List Player
  newPlayer : Draft
  editingId : Option Nat
  sortConfig : SortConfig
  errors : List (String × String)
deriving Repr, DecidableEq

/-- The initial component state (all cells at their `useState`
defaults, source lines 32-36). -/
def initState : RosterState :=
  ⟨[], emptyDraft, none, defaultSortConfig, []⟩

/-- The error message recorded when `validateName` fails
(source line 125). -/
def nameErrorMsg : String :=
  "Invalid name. Please enter a non-empty name up to 100 characters."

/-- The error message recorded when `validatePosition` fails
(source line 128). -/
def positionErrorMsg : String :=
  "Invalid position. Please select a valid position."

/-- The error message recorded when `validateRating` fails
(source line 131). -/
def ratingErrorMsg : String :=
  "Invalid rating. Please enter a number between 0 and 99."

/-- The `newErrors` mapping built by `validatePlayer`
(source lines 121-133): one entry per failing field validator, in the
order name, position, rating. -/
def validatePlayerErrors (d : Draft) : List (String × String) :=
  (if validateName d.name then [] else [("name", nameErrorMsg)]) ++
  (if validatePosition d.position then [] else [("position", positionErrorMsg)]) ++
  (if validateRating d.rating then [] else [("rating", ratingErrorMsg)])

/-- The record appended by `addPlayer` on success (source line 68):
the draft with a fresh `Date.now()` id and a re-capitalized name. -/
def mkPlayer (now : Nat) (d : Draft) : Player :=
  ⟨now, capitalizeName d.name, d.position, d.year, d.rating⟩

/-- The `addPlayer` handler (source lines 65-78): it calls
`validatePlayer`, which always stores the fresh error mapping
(source line 134); on success it appends the new record, clears the
draft and (via the `useEffect` on `[players]`) resets the sort
configuration; on failure the store is untouched. -/
def addPlayer (s : RosterState) (now : Nat) : RosterState :=
  let newErrors := validatePlayerErrors s.newPlayer
  if newErrors.isEmpty then
    { s with
      players := s.players ++ [mkPlayer now s.newPlayer],
      newPlayer := emptyDraft,
      errors := newErrors,
      sortConfig := defaultSortConfig }
  else
    { s with errors := newErrors }

/-- The `startEditing` handler (source lines 97-100): records the
edited id and copies the record's fields into the draft.  (The extra
runtime `id` property passed to `setNewPlayer` is dead: both consumers
of the draft overwrite `id`.) -/
def startEditing (s : RosterState) (p : Player) : RosterState :=
  { s with editingId := some p.id, newPlayer := ⟨p.name, p.position, p.year, p.rating⟩ }

/-- The `saveEdit` handler (source lines 102-110): maps over the store
replacing every record whose id equals `editingId` by the draft (id
preserved, name re-capitalized), then clears `editingId` and the
draft.  `setPlayers` is called unconditionally, so the `useEffect`
resets the sort configuration.  Note: no validation is performed. -/
def saveEdit (s : RosterState) : RosterState :=
  { s with
    players := s.players.map (fun player =>
      if some player.id = s.editingId then
        ⟨player.id, capitalizeName s.newPlayer.name, s.newPlayer.position,
          s.newPlayer.year, s.newPlayer.rating⟩
      else player),
    editingId := none,
    newPlayer := emptyDraft,
    sortConfig := defaultSortConfig }

/-- The `cancelEdit` handler (source lines 112-115): clears
`editingId` and the draft, touching nothing else. -/
def cancelEdit (s : RosterState) : RosterState :=
  { s with editingId := none, newPlayer := emptyDraft }

/-- The `removePlayer` handler (source lines 117-119): filters the
record with the given id out of the store; `setPlayers` is called, so
the `useEffect` resets the sort configuration. -/
def removePlayer (s : RosterState) (i : Nat) : RosterState :=
  { s with
    players := s.players.filter (fun player => player.id ≠ i),
    sortConfig := defaultSortConfig }

/-- A form field-change event (the `onChange` / `onValueChange`
handlers, source lines 150, 157, 170, 183): updates one draft field. -/
def updateDraft (s : RosterState) (f : SortField) (v : String) : RosterState :=
  match f with
  | .name => { s with newPlayer := { s.newPlayer with name := v } }
  | .position => { s with newPlayer := { s.newPlayer with position := v } }
  | .year => { s with newPlayer := { s.newPlayer with year := v } }
  | .rating => { s with newPlayer := { s.newPlayer with rating := v } }

/-- A sequence of form field-change events applied in order. -/
def applyDraftEdits (s : RosterState) (edits : List (SortField × String)) : RosterState :=
  edits.foldl (fun t e => updateDraft t e.1 e.2) s

/-- The failing-field list as the spec describes it (§4.1 and §8):
"the exact failing fields", one per validator that rejects the
candidate, empty exactly when the record is fully valid.  Stated
directly in terms of the three field validators for comparison with
the mapping `validatePlayer` builds. -/
def specFailingFields (d : Draft) : List String :=
  (if validateName d.name then [] else ["name"]) ++
  (if validatePosition d.position then [] else ["position"]) ++
  (if validateRating d.rating then [] else ["rating"])

/-! ### Helper lemmas -/

/-- `updateDraft` only touches the draft cell. -/
theorem updateDraft_frame (s : RosterState) (f : SortField) (v : String) :
    (updateDraft s f v).players = s.players ∧
    (updateDraft s f v).errors = s.errors ∧
    (updateDraft s f v).sortConfig = s.sortConfig ∧
    (updateDraft s f v).editingId = s.editingId := by
  cases f <;> exact ⟨rfl, rfl, rfl, rfl⟩

/-- A sequence of draft edits only touches the draft cell. -/
theorem applyDraftEdits_frame (edits : List (SortField × String)) (s : RosterState) :
    (applyDraftEdits s edits).players = s.players ∧
    (applyDraftEdits s edits).errors = s.errors ∧
    (applyDraftEdits s edits).sortConfig = s.sortConfig ∧
    (applyDraftEdits s edits).editingId = s.editingId := by
  induction edits generalizing s with
  | nil => exact ⟨rfl, rfl, rfl, rfl⟩
  | cons e es ih =>
    have h1 := updateDraft_frame s e.1 e.2
    have h2 := ih (updateDraft s e.1 e.2)
    simp only [applyDraftEdits, List.foldl_cons] at h2 ⊢
    exact ⟨h2.1.trans h1.1, h2.2.1.trans h1.2.1,
      h2.2.2.1.trans h1.2.2.1, h2.2.2.2.trans h1.2.2.2⟩

/-- Mapping a function that fixes every member of a list is the
identity on that list. -/
theorem map_id_of_mem {α : Type} (f : α → α) :
    ∀ (l : List α), (∀ a ∈ l, f a = a) → l.map f = l
  | [], _ => rfl
  | a :: as, h => by
    simp only [List.map_cons, List.cons.injEq]
    exact ⟨h a (by simp), map_id_of_mem f as (fun x hx => h x (by simp [hx]))⟩

/-- Membership in an `insertBy` result. -/
theorem mem_insertBy {α : Type} (cmp : α → α → Int) (a x : α) :
    ∀ (l : List α), (x ∈ insertBy cmp a l ↔ x = a ∨ x ∈ l)
  | [] => by simp [insertBy]
  | b :: bs => by
    by_cases h : cmp a b < 0
    · simp [insertBy, h]
    · simp [insertBy, h, mem_insertBy cmp a x bs]
      tauto

/-- `insertBy` is a permutation of consing. -/
theorem insertBy_perm {α : Type} (cmp : α → α → Int) (a : α) :
    ∀ (l : List α), List.Perm (insertBy cmp a l) (a :: l)
  | [] => List.Perm.refl _
  | b :: bs => by
    by_cases h : cmp a b < 0
    · simp [insertBy, h]
    · simp only [insertBy, h, if_neg]
      exact ((insertBy_perm cmp a bs).cons b).trans (List.Perm.swap a b bs)

/-- The fold underlying `sortJs` permutes its input onto the
accumulator. -/
theorem sortJs_aux_perm {α : Type} (cmp : α → α → Int) :
    ∀ (l acc : List α),
      List.Perm (l.foldl (fun acc x => insertBy cmp x acc) acc) (l ++ acc)
  | [], acc => by simp
  | x :: xs, acc => by
    simp only [List.foldl_cons, List.cons_append]
    exact (sortJs_aux_perm cmp xs (insertBy cmp x acc)).trans
      (((insertBy_perm cmp x acc).append_left xs).trans List.perm_middle)

/-- `sortJs` returns a permutation of its input. -/
theorem sortJs_perm {α : Type} (cmp : α → α → Int) (l : List α) :
    List.Perm (sortJs cmp l) l := by
  simpa using sortJs_aux_perm cmp l []

/-- Inserting into a list ordered by an integer key keeps it ordered,
provided the comparator agrees with the key on the elements involved. -/
theorem pairwise_insertBy {α : Type} (cmp : α → α → Int) (k : α → Int) (P : α → Prop)
    (hcmp : ∀ x y, P x → P y → (cmp x y < 0 ↔ k x < k y)) (a : α) (ha : P a) :
    ∀ (l : List α), (∀ x ∈ l, P x) → l.Pairwise (fun x y => k x ≤ k y) →
      (insertBy cmp a l).Pairwise (fun x y => k x ≤ k y)
  | [], _, _ => by simp [insertBy]
  | b :: bs, hl, hs => by
    have hb : P b := hl b (by simp)
    have hbs : ∀ x ∈ bs, P x := fun x hx => hl x (by simp [hx])
    rcases List.pairwise_cons.mp hs with ⟨hb_bs, hs'⟩
    by_cases h : cmp a b < 0
    · have hab : k a < k b := (hcmp a b ha hb).mp h
      simp only [insertBy, if_pos h]
      refine List.pairwise_cons.mpr ⟨?_, hs⟩
      intro x hx
      rcases List.mem_cons.mp hx with rfl | hx'
      · exact le_of_lt hab
      · exact le_of_lt (lt_of_lt_of_le hab (hb_bs x hx'))
    · have hba : k b ≤ k a := by
        have h2 : ¬ (k a < k b) := fun hk => h ((hcmp a b ha hb).mpr hk)
        omega
      simp only [insertBy, if_neg h]
      refine List.pairwise_cons.mpr
        ⟨?_, pairwise_insertBy cmp k P hcmp a ha bs hbs hs'⟩
      intro x hx
      rcases (mem_insertBy cmp a x bs).mp hx with rfl | hx'
      · exact hba
      · exact hb_bs x hx'

/-- `sortJs` output is ordered by the key when the comparator agrees
with the key on all elements of the input. -/
theorem sortJs_pairwise {α : Type} (cmp : α → α → Int) (k : α → Int) (P : α → Prop)
    (hcmp : ∀ x y, P x → P y → (cmp x y < 0 ↔ k x < k y)) :
    ∀ (l acc : List α), (∀ x ∈ l, P x) → (∀ x ∈ acc, P x) →
      acc.Pairwise (fun x y => k x ≤ k y) →
      (l.foldl (fun acc x => insertBy cmp x acc) acc).Pairwise (fun x y => k x ≤ k y)
  | [], acc, _, _, hsorted => by simpa using hsorted
  | x :: xs, acc, hl, hacc, hsorted => by
    have hx : P x := hl x (by simp)
    have hxs : ∀ y ∈ xs, P y := fun y hy => hl y (by simp [hy])
    have hacc' : ∀ y ∈ insertBy cmp x acc, P y := by
      intro y hy
      rcases (mem_insertBy cmp x y acc).mp hy with rfl | hy'
      · exact hx
      · exact hacc y hy'
    simp only [List.foldl_cons]
    exact sortJs_pairwise cmp k P hcmp xs (insertBy cmp x acc) hxs hacc'
      (pairwise_insertBy cmp k P hcmp x hx acc hacc hsorted)

/-- A year label from the fixed list has an entry in the rank table. -/
theorem yearOrder_mem_some (y : String) (h : y ∈ years) :
    yearOrder y = some ((yearOrder y).getD 0) := by
  fin_cases h <;> rfl

/-- The rank a record's year label holds in the `yearOrder` table
(only meaningful when the label is one of the eight). -/
def yRank (p : Player) : Nat := (yearOrder p.year).getD 0

/-- On records whose labels are in the table, the ascending year
comparator is exactly the rank difference. -/
theorem compareForSort_year_asc (a b : Player)
    (ha : a.year ∈ years) (hb : b.year ∈ years) :
    compareForSort ⟨.year, .asc⟩ a b = (yRank a : Int) - (yRank b : Int) := by
  unfold compareForSort
  rw [yearOrder_mem_some a.year ha, yearOrder_mem_some b.year hb]
  rfl

/-! ### Claim theorems -/

/-- Claim C3: for every candidate record, `addPlayer` commits (appends
the capitalized record) exactly when all three field validators hold;
otherwise the store is unchanged; and the stored error mapping has one
entry per failing field, in validator order, empty exactly when the
record is fully valid. -/
theorem addPlayer_validation_gate (s : RosterState) (now : Nat) :
    ((addPlayer s now).errors.map Prod.fst = specFailingFields s.newPlayer) ∧
    ((addPlayer s now).players =
      if specFailingFields s.newPlayer = [] then s.players ++ [mkPlayer now s.newPlayer]
      else s.players) ∧
    ((addPlayer s now).errors = [] ↔ specFailingFields s.newPlayer = []) ∧
    (specFailingFields s.newPlayer = [] ↔
      validateName s.newPlayer.name = true ∧
      validatePosition s.newPlayer.position = true ∧
      validateRating s.newPlayer.rating = true) := by
  cases hn : validateName s.newPlayer.name <;>
    cases hp : validatePosition s.newPlayer.position <;>
      cases hr : validateRating s.newPlayer.rating <;>
        simp [addPlayer, validatePlayerErrors, specFailingFields, hn, hp, hr]

/-- Claim C7: each operation that replaces the stored collection
(successful add, saveEdit, remove) leaves the sort configuration at
the default `rating`/descending, whatever it was before. -/
theorem mutations_reset_sortConfig (s : RosterState) (now i : Nat)
    (h : validatePlayerErrors s.newPlayer = []) :
    (addPlayer s now).sortConfig = defaultSortConfig ∧
    (saveEdit s).sortConfig = defaultSortConfig ∧
    (removePlayer s i).sortConfig = defaultSortConfig := by
  refine ⟨?_, rfl, rfl⟩
  unfold addPlayer
  simp [h]

/-- Witness for C7 at a concrete state with a valid draft. -/
theorem mutations_reset_sortConfig_witness :
    (addPlayer ⟨[], ⟨"Bob", "QB", "FR", "50"⟩, none, ⟨.name, .asc⟩, []⟩ 7).sortConfig
        = defaultSortConfig ∧
    (saveEdit ⟨[], ⟨"Bob", "QB", "FR", "50"⟩, none, ⟨.name, .asc⟩, []⟩).sortConfig
        = defaultSortConfig ∧
    (removePlayer ⟨[], ⟨"Bob", "QB", "FR", "50"⟩, none, ⟨.name, .asc⟩, []⟩ 3).sortConfig
        = defaultSortConfig :=
  mutations_reset_sortConfig ⟨[], ⟨"Bob", "QB", "FR", "50"⟩, none, ⟨.name, .asc⟩, []⟩ 7 3
    (by decide)

/-- Claim C8: `startEditing` followed by any sequence of draft edits
and then `cancelEdit` leaves the stored collection (and the error and
sort cells) exactly as before, ends with no active edit session and a
cleared draft; and `cancelEdit` from any state clears only
`editingId` and the draft, running no validation (errors untouched). -/
theorem startEdit_cancelEdit_frame (s : RosterState) (r : Player)
    (edits : List (SortField × String)) (u : RosterState) :
    (cancelEdit (applyDraftEdits (startEditing s r) edits)).players = s.players ∧
    (cancelEdit (applyDraftEdits (startEditing s r) edits)).errors = s.errors ∧
    (cancelEdit (applyDraftEdits (startEditing s r) edits)).sortConfig = s.sortConfig ∧
    (cancelEdit (applyDraftEdits (startEditing s r) edits)).editingId = none ∧
    (cancelEdit (applyDraftEdits (startEditing s r) edits)).newPlayer = emptyDraft ∧
    ((cancelEdit u).players = u.players ∧ (cancelEdit u).errors = u.errors ∧
      (cancelEdit u).sortConfig = u.sortConfig ∧ (cancelEdit u).editingId = none ∧
      (cancelEdit u).newPlayer = emptyDraft) := by
  have h := applyDraftEdits_frame edits (startEditing s r)
  exact ⟨h.1, h.2.1, h.2.2.1, rfl, rfl, rfl, rfl, rfl, rfl, rfl⟩

/-- Claim C9: `removePlayer j` keeps exactly the records whose id
differs from `j` (each preserved unmodified, in order), in any
controller state; and when no stored record has id `i` the collection
is left unchanged. -/
theorem removePlayer_filters (s t : RosterState) (i j : Nat)
    (h : ∀ p ∈ s.players, p.id ≠ i) :
    (removePlayer s i).players = s.players ∧
    (removePlayer t j).players = t.players.filter (fun p => p.id ≠ j) := by
  refine ⟨?_, rfl⟩
  show s.players.filter (fun p => p.id ≠ i) = s.players
  exact List.filter_eq_self.mpr (fun p hp => by simpa using h p hp)

/-- Witness for C9: removing an absent id from a one-record store,
and the filter characterization on a two-record store. -/
theorem removePlayer_filters_witness :
    (removePlayer ⟨[⟨1, "Bob", "QB", "FR", "50"⟩], emptyDraft, none, defaultSortConfig, []⟩
        2).players = [⟨1, "Bob", "QB", "FR", "50"⟩] ∧
    (removePlayer ⟨[⟨1, "Bob", "QB", "FR", "50"⟩, ⟨2, "Al", "RB", "SO", "60"⟩], emptyDraft,
        none, defaultSortConfig, []⟩ 1).players =
      [⟨1, "Bob", "QB", "FR", "50"⟩, ⟨2, "Al", "RB", "SO", "60"⟩].filter
        (fun p => p.id ≠ 1) :=
  removePlayer_filters
    ⟨[⟨1, "Bob", "QB", "FR", "50"⟩], emptyDraft, none, defaultSortConfig, []⟩
    ⟨[⟨1, "Bob", "QB", "FR", "50"⟩, ⟨2, "Al", "RB", "SO", "60"⟩], emptyDraft, none,
      defaultSortConfig, []⟩ 2 1 (by decide)

/-- One player per year label, in scrambled input order, used for the
concrete part of claim C4. -/
def c4Shuffled : List Player :=
  [⟨1, "a", "QB", "SR", "1"⟩, ⟨2, "b", "QB", "FR (RS)", "1"⟩,
   ⟨3, "c", "QB", "JR", "1"⟩, ⟨4, "d", "QB", "SO (RS)", "1"⟩,
   ⟨5, "e", "QB", "FR", "1"⟩, ⟨6, "f", "QB", "SR (RS)", "1"⟩,
   ⟨7, "g", "QB", "SO", "1"⟩, ⟨8, "h", "QB", "JR (RS)", "1"⟩]

/-- A junior record: its year label is lexically below `"SO"` but
ranks above it in the table. -/
def c4JR : Player := ⟨1, "a", "QB", "JR", "1"⟩

/-- A sophomore record, the lexical/rank divergence partner of
`c4JR`. -/
def c4SO : Player := ⟨2, "b", "QB", "SO", "1"⟩

/-- Claim C4: ascending sort by year orders any collection of records
carrying the eight labels by the fixed rank table (the output is a
permutation of the input, pairwise ordered by rank); one record of
each label yields exactly the canonical sequence; and the comparison
is by rank, never lexical: the sort puts `"SO"` before `"JR"` even
though the lexical comparator would order `"JR"` first. -/
theorem year_sort_uses_rank_table (ps : List Player)
    (h : ∀ p ∈ ps, p.year ∈ years) :
    List.Perm (sortedPlayers ps ⟨.year, .asc⟩) ps ∧
    (sortedPlayers ps ⟨.year, .asc⟩).Pairwise (fun a b => yRank a ≤ yRank b) ∧
    (sortedPlayers c4Shuffled ⟨.year, .asc⟩).map Player.year = years ∧
    sortedPlayers [c4JR, c4SO] ⟨.year, .asc⟩ = [c4SO, c4JR] ∧
    strFieldCmp .asc c4JR.year c4SO.year = -1 := by
  have hcmp : ∀ x y : Player, x.year ∈ years → y.year ∈ years →
      (compareForSort ⟨.year, .asc⟩ x y < 0 ↔ ((yRank x : Int) < (yRank y : Int))) := by
    intro x y hx hy
    rw [compareForSort_year_asc x y hx hy]
    omega
  have hp := sortJs_pairwise (compareForSort ⟨.year, .asc⟩) (fun p => (yRank p : Int))
    (fun p => p.year ∈ years) hcmp ps [] h (by simp) (by simp)
  refine ⟨sortJs_perm _ ps, ?_, by decide, by decide, by decide⟩
  exact hp.imp (fun hxy => Int.ofNat_le.mp hxy)

/-- Witness for C4 at the scrambled eight-label roster. -/
theorem year_sort_uses_rank_table_witness :
    List.Perm (sortedPlayers c4Shuffled ⟨.year, .asc⟩) c4Shuffled ∧
    (sortedPlayers c4Shuffled ⟨.year, .asc⟩).Pairwise (fun a b => yRank a ≤ yRank b) ∧
    (sortedPlayers c4Shuffled ⟨.year, .asc⟩).map Player.year = years ∧
    sortedPlayers [c4JR, c4SO] ⟨.year, .asc⟩ = [c4SO, c4JR] ∧
    strFieldCmp .asc c4JR.year c4SO.year = -1 :=
  year_sort_uses_rank_table c4Shuffled (by decide)

/-- The four-record roster from the spec's rating-sort test (§8). -/
def c5Records : List Player :=
  [⟨1, "a", "QB", "FR", "45"⟩, ⟨2, "b", "QB", "FR", "92"⟩,
   ⟨3, "c", "QB", "FR", "7"⟩, ⟨4, "d", "QB", "FR", "99"⟩]

/-- Claim C5: the rating comparator compares records by the parsed
integer value of the rating string (descending on 45/92/7/99 yields
99/92/45/7, ascending the reverse), and on any record whose rating
fails to parse the comparator deterministically returns 0 (equal) —
the ECMAScript NaN-to-+0 rule — rather than faulting. -/
theorem rating_sort_numeric (d : SortDir) (a b x y : Player) (nx ny : Int)
    (h : jsParseInt a.rating = none ∨ jsParseInt b.rating = none)
    (hx : jsParseInt x.rating = some nx) (hy : jsParseInt y.rating = some ny) :
    compareForSort ⟨.rating, d⟩ a b = 0 ∧
    compareForSort ⟨.rating, .asc⟩ x y = nx - ny ∧
    compareForSort ⟨.rating, .desc⟩ x y = ny - nx ∧
    (sortedPlayers c5Records ⟨.rating, .desc⟩).map Player.rating = ["99", "92", "45", "7"] ∧
    (sortedPlayers c5Records ⟨.rating, .asc⟩).map Player.rating = ["7", "45", "92", "99"] := by
  refine ⟨?_, ?_, ?_, by decide, by decide⟩
  · cases ha : jsParseInt a.rating <;> cases hb : jsParseInt b.rating <;>
      simp_all [compareForSort]
  · unfold compareForSort
    rw [hx, hy]
  · unfold compareForSort
    rw [hx, hy]

/-- Witness for C5: an unparsable rating against a parsable one. -/
theorem rating_sort_numeric_witness :
    compareForSort ⟨.rating, .desc⟩ ⟨1, "a", "QB", "FR", "x"⟩ ⟨2, "b", "QB", "FR", "50"⟩ = 0 ∧
    compareForSort ⟨.rating, .asc⟩ ⟨3, "c", "QB", "FR", "45"⟩ ⟨4, "d", "QB", "FR", "92"⟩
        = 45 - 92 ∧
    compareForSort ⟨.rating, .desc⟩ ⟨3, "c", "QB", "FR", "45"⟩ ⟨4, "d", "QB", "FR", "92"⟩
        = 92 - 45 ∧
    (sortedPlayers c5Records ⟨.rating, .desc⟩).map Player.rating = ["99", "92", "45", "7"] ∧
    (sortedPlayers c5Records ⟨.rating, .asc⟩).map Player.rating = ["7", "45", "92", "99"] :=
  rating_sort_numeric .desc ⟨1, "a", "QB", "FR", "x"⟩ ⟨2, "b", "QB", "FR", "50"⟩
    ⟨3, "c", "QB", "FR", "45"⟩ ⟨4, "d", "QB", "FR", "92"⟩ 45 92 (Or.inl (by decide))
    (by decide) (by decide)

/-- Claim C10: when `editingId` matches no stored record (for example
after the edited record was removed), `saveEdit` leaves every stored
record unchanged and still clears `editingId` and the draft. -/
theorem saveEdit_missing_editingId (s : RosterState)
    (h : ∀ p ∈ s.players, some p.id ≠ s.editingId) :
    (saveEdit s).players = s.players ∧
    (saveEdit s).editingId = none ∧
    (saveEdit s).newPlayer = emptyDraft := by
  refine ⟨?_, rfl, rfl⟩
  show s.players.map _ = s.players
  exact map_id_of_mem _ s.players (fun p hp => by simp [h p hp])

/-- Witness for C10: saving while the edited id was already removed. -/
theorem saveEdit_missing_editingId_witness :
    (saveEdit ⟨[⟨1, "Bob", "QB", "FR", "50"⟩], ⟨"X", "RB", "SO", "60"⟩, some 2,
        defaultSortConfig, []⟩).players = [⟨1, "Bob", "QB", "FR", "50"⟩] ∧
    (saveEdit ⟨[⟨1, "Bob", "QB", "FR", "50"⟩], ⟨"X", "RB", "SO", "60"⟩, some 2,
        defaultSortConfig, []⟩).editingId = none ∧
    (saveEdit ⟨[⟨1, "Bob", "QB", "FR", "50"⟩], ⟨"X", "RB", "SO", "60"⟩, some 2,
        defaultSortConfig, []⟩).newPlayer = emptyDraft :=
  saveEdit_missing_editingId ⟨[⟨1, "Bob", "QB", "FR", "50"⟩], ⟨"X", "RB", "SO", "60"⟩,
    some 2, defaultSortConfig, []⟩ (by decide)

/-- An edit session on the one stored record in which the draft's
name has been cleared, making the draft invalid. -/
def c1State : RosterState :=
  ⟨[⟨1, "Bob", "QB", "FR", "50"⟩], ⟨"", "QB", "FR", "50"⟩, some 1, defaultSortConfig, []⟩

/-- Claim C1: `saveEdit` does NOT validate the draft.  At an edit
session whose draft fails `validateName` (and hence the composite
validator), `saveEdit` still commits the invalid draft over the
stored record, transitions to Idle (clearing `editingId`) and reports
no field errors — where the claim requires no mutation, no
transition, and an error report. -/
theorem saveEdit_commits_invalid_draft :
    validateName c1State.newPlayer.name = false ∧
    validatePlayerErrors c1State.newPlayer ≠ [] ∧
    (saveEdit c1State).players = [⟨1, "", "QB", "FR", "50"⟩] ∧
    (saveEdit c1State).players ≠ c1State.players ∧
    (saveEdit c1State).editingId = none ∧
    (saveEdit c1State).errors = c1State.errors := by decide

/-- The state after adding one fully valid player (id 100) from the
initial state. -/
def c2Added : RosterState :=
  addPlayer (updateDraft (updateDraft (updateDraft (updateDraft initState
    .name "Bob") .position "QB") .year "FR") .rating "50") 100

/-- Continuation of `c2Added`: edit the stored record, type an
out-of-range rating into the draft, and save. -/
def c2Trace : RosterState :=
  saveEdit (updateDraft (startEditing c2Added ⟨100, "Bob", "QB", "FR", "50"⟩) .rating "150")

/-- Claim C2: the no-invalid-record store invariant is violated on a
reachable trace.  Starting from the initial state: add a valid
player, start editing it (the record is in the store), type the
rating "150" into the draft, save.  The store then durably holds a
record whose rating fails `validateRating`. -/
theorem invalid_record_reachable :
    (⟨100, "Bob", "QB", "FR", "50"⟩ : Player) ∈ c2Added.players ∧
    c2Trace.players = [⟨100, "Bob", "QB", "FR", "150"⟩] ∧
    (∃ p ∈ c2Trace.players, validateRating p.rating = false) := by decide

/-- A reachable state in which two successful adds were issued with
the same `Date.now()` millisecond value. -/
def c6State : RosterState :=
  addPlayer (updateDraft (updateDraft (updateDraft
    (addPlayer (updateDraft (updateDraft (updateDraft initState
      .name "Bob") .position "QB") .rating "50") 5)
    .name "Cy") .position "RB") .rating "60") 5

/-- Claim C6 counterexample: `addPlayer` takes the new id from the
external clock and performs no freshness check, so two adds in the
same millisecond produce two stored records with the same id. -/
theorem duplicate_ids_reachable :
    c6State.players.map Player.id = [5, 5] ∧
    ¬ (c6State.players.map Player.id).Nodup := by decide

/-- Claim C6 amended: distinctness of stored ids is preserved by
`addPlayer` exactly when the clock value supplied to it is fresh —
different from every id already in the collection (e.g. a strictly
increasing millisecond clock); the code itself performs no freshness
check. -/
theorem addPlayer_id_fresh (s : RosterState) (now : Nat)
    (hnd : (s.players.map Player.id).Nodup)
    (hfresh : now ∉ s.players.map Player.id) :
    ((addPlayer s now).players.map Player.id).Nodup := by
  cases h : (validatePlayerErrors s.newPlayer).isEmpty
  · simpa [addPlayer, h] using hnd
  · simp [addPlayer, h, mkPlayer, List.nodup_append, hnd]
    simpa using hfresh

/-- Witness for the amended C6: a fresh clock value against a
one-record store with a valid draft. -/
theorem addPlayer_id_fresh_witness :
    ((addPlayer ⟨[⟨1, "Bob", "QB", "FR", "50"⟩], ⟨"Al", "RB", "SO", "60"⟩, none,
        defaultSortConfig, []⟩ 2).players.map Player.id).Nodup :=
  addPlayer_id_fresh ⟨[⟨1, "Bob", "QB", "FR", "50"⟩], ⟨"Al", "RB", "SO", "60"⟩, none,
    defaultSortConfig, []⟩ 2 (by decide) (by decide)

end CFB25
